import Mathlib

/-!
A verification development for the pareceres-recebidos-etica application
(src/app.py). The two functions with actual logic are embedded:

  * carregar_mapa (app.py lines 25-98): reads the spreadsheet and returns the
    normalized list of (aluno, arquivo) pairs;
  * listar_arquivos_do_aluno (app.py lines 100-111): resolves the entries of
    one student into remote links or local paths.

The spreadsheet, as pandas delivers it after astype(str), is modelled as a
list of rows of strings: every cell is already stringified, so a blank cell
appears as the literal string "nan" (str(float nan)).  String primitives of
Python (strip, lower, re.split, os.path.join, os.path.basename) are given
structural definitions over the character list of a String so that every
definition evaluates inside the kernel.
-/

namespace App

/-- One normalized mapping row: (aluno, arquivo). -/
abbrev Pair := String × String

/-! ### String primitives (Python str.strip, str.lower, re.split, os.path) -/

/-- Drop whitespace on both ends of a character list (Python str.strip). -/
def trimChars (cs : List Char) : List Char :=
  ((cs.dropWhile Char.isWhitespace).reverse.dropWhile Char.isWhitespace).reverse

/-- Python str.strip, the normalization of _normalize_str (app.py line 22). -/
def strip (s : String) : String := String.mk (trimChars s.data)

/-- Python str.lower / str.casefold (they agree on the ASCII data the app
compares; modelled by Char.toLower on each character). -/
def lower (s : String) : String := String.mk (s.data.map Char.toLower)

/-- Does the first list lead the second one (character by character)? -/
def leadsWith : List Char → List Char → Bool
  | [], _ => true
  | _ :: _, [] => false
  | a :: as, b :: bs => a == b && leadsWith as bs

/-- Python str.startswith. -/
def beginsWith (s pre : String) : Bool := leadsWith pre.data s.data

/-- Python str.endswith, used by the os.path.join model. -/
def finishesWith (s suf : String) : Bool := leadsWith suf.data.reverse s.data.reverse

/-- Split a character list at every character satisfying p, like re.split on a
character class: empty pieces between adjacent delimiters are kept. -/
def splitAccum (p : Char → Bool) (cur : List Char) : List Char → List String
  | [] => [String.mk cur.reverse]
  | c :: rest =>
    if p c then String.mk cur.reverse :: splitAccum p [] rest
    else splitAccum p (c :: cur) rest

/-- Split a string at every character satisfying p. -/
def splitBy (p : Char → Bool) (s : String) : List String := splitAccum p [] s.data

/-- The delimiters of the multi-value cells (app.py line 90: regex [|,;]). -/
def isDelim (c : Char) : Bool := c == '|' || c == ',' || c == ';'

/-- app.py line 90: pd.Series(str(arquivo)).str.split applied to [|,;]. -/
def splitDelims (s : String) : List String := splitBy isDelim s

/-- os.path.isabs on a POSIX system: the path begins with a slash. -/
def isAbs (p : String) : Bool := beginsWith p "/"

/-- os.path.basename on POSIX: the part after the last slash. -/
def basename (p : String) : String := (splitBy (fun c => c == '/') p).getLastD ""

/-- os.path.join on POSIX for two components, as called at app.py line 109. -/
def osJoin (d f0 : String) : String :=
  if isAbs f0 then f0
  else if d = "" ∨ finishesWith d "/" then d ++ f0
  else d ++ "/" ++ f0

/-! ### Configuration (app.py lines 10-11) -/

/-- app.py line 10: the spreadsheet path. -/
def ARQ_XLSX : String := "pareceres_recebidos.xlsx"

/-- app.py line 11: the base directory holding the local files. -/
def PASTA_PARECERES : String := "Pareceres"

/-! ### Mapping Loader: carregar_mapa (app.py lines 25-98) -/

/-- app.py line 50: the aliases that the header detection (has_names)
actually tests. -/
def headerAliases : List String :=
  ["aluno", "alunos", "discente", "arquivo", "parecer", "arquivo do parecer"]

/-- app.py line 61: the student-column aliases, in priority order. -/
def studentAliases : List String :=
  ["aluno", "alunos", "discente", "nome", "nome do aluno"]

/-- app.py line 66: the file-column aliases, in priority order. -/
def fileAliases : List String :=
  ["arquivo", "parecer", "arquivo do parecer", "pdf", "coluna b"]

/-- app.py line 48: lower_cols, the lowercased trimmed labels of row 0. -/
def lowerCols (labels : List String) : List String :=
  labels.map (fun c => lower (strip c))

/-- app.py lines 49-52: has_names, the header detection flag. -/
def hasNames (labels : List String) : Bool :=
  (lowerCols labels).any (fun c => headerAliases.contains c)

/-- app.py lines 60-69: scan the candidate aliases in priority order and for
the first alias present return the first column index carrying it
(lower_cols.index). -/
def findAliasIdx (low : List String) : List String → Option Nat
  | [] => none
  | cand :: rest =>
    match low.indexOf? cand with
    | some i => some i
    | none => findAliasIdx low rest

/-- Which columns the loader reads: a positional re-read (header=None,
columns 0 and 1) or the two named columns found in the header row. -/
inductive ColSel where
  | positional
  | named (studentIdx fileIdx : Nat)
  deriving DecidableEq

/-- app.py lines 54-75: the column-selection decision.  With no recognized
header the table is re-read positionally; with recognized headers the two
alias scans run, and if either fails the loader falls back to the positional
re-read. -/
def selectCols (labels : List String) : ColSel :=
  if hasNames labels then
    match findAliasIdx (lowerCols labels) studentAliases,
          findAliasIdx (lowerCols labels) fileAliases with
    | some i, some j => ColSel.named i j
    | _, _ => ColSel.positional
  else ColSel.positional

/-- The number of columns of the sheet (pandas pads every row to it). -/
def tableWidth (rows : List (List String)) : Nat :=
  rows.foldr (fun r acc => max r.length acc) 0

/-- Read one normalized cell (app.py lines 77-81): a cell inside the sheet
that a short row misses is NaN, stringified to "nan" and trimmed; a column
index beyond the sheet width is a column the code adds as the empty string
(app.py lines 78-80); every present cell is stringified and trimmed. -/
def getCell (w : Nat) (row : List String) (i : Nat) : String :=
  if i < w then strip (row.getD i "nan") else ""

/-- app.py lines 90-92: split a file cell on the delimiters, trim the pieces,
drop the empty ones, and fall back to the whole string when nothing is left. -/
def expandPieces (arquivo : String) : List String :=
  let partes := ((splitDelims arquivo).map strip).filter (fun p => p != "")
  if partes.isEmpty then [arquivo] else partes

/-- app.py lines 85-94: the contribution of one row to the expanded rows
list: nothing when the student text or the file text is empty or the file
text lowercases to the literal nan, otherwise one pair per expanded piece. -/
def processRow (aluno0 arquivo0 : String) : List Pair :=
  let aluno := strip aluno0
  let arquivo := strip arquivo0
  if aluno = "" ∨ arquivo = "" ∨ lower arquivo = "nan" then []
  else (expandPieces arquivo).map (fun p => (aluno, p))

/-- app.py lines 84-94: the expanded rows list built from the data rows,
reading the student column si and the file column fi. -/
def expandedEntries (w : Nat) (data : List (List String)) (si fi : Nat) : List Pair :=
  data.flatMap (fun r => processRow (getCell w r si) (getCell w r fi))

/-- app.py line 96 else-branch: the normalized raw column pairs, unfiltered. -/
def rawPairs (w : Nat) (data : List (List String)) (si fi : Nat) : List Pair :=
  data.map (fun r => (getCell w r si, getCell w r fi))

/-- pandas drop_duplicates keeping the first occurrence (app.py line 97). -/
def dedupAux (seen : List Pair) : List Pair → List Pair
  | [] => []
  | e :: rest => if e ∈ seen then dedupAux seen rest else e :: dedupAux (e :: seen) rest

/-- app.py line 97: df.drop_duplicates(). -/
def dedup (l : List Pair) : List Pair := dedupAux [] l

/-- The data rows and the two column indices the loader processes, according
to the column-selection decision: the positional re-read keeps every row of
the sheet (the header row becomes data), the named read drops the header
row. -/
def selData (table : List (List String)) : List (List String) × Nat × Nat :=
  match selectCols (table.headD []) with
  | ColSel.positional => (table, 0, 1)
  | ColSel.named i j => (table.tail, i, j)

/-- The expanded rows list of a whole sheet (the rows variable of app.py
lines 84-94). -/
def tableEntries (table : List (List String)) : List Pair :=
  expandedEntries (tableWidth table) (selData table).1 (selData table).2.1 (selData table).2.2

/-- The fallback pairs of a whole sheet (app.py line 96 else-branch). -/
def rawPairsOf (table : List (List String)) : List Pair :=
  rawPairs (tableWidth table) (selData table).1 (selData table).2.1 (selData table).2.2

/-- carregar_mapa (app.py lines 25-98) on an already-read sheet: build the
expanded rows; when no row survived, fall back to the raw normalized column
pairs (line 96); deduplicate (line 97). -/
def carregar_mapa (table : List (List String)) : List Pair :=
  dedup (if (tableEntries table).isEmpty then rawPairsOf table else tableEntries table)

/-! ### Resolver: listar_arquivos_do_aluno (app.py lines 100-111) -/

/-- The classification tag of a resolved file (the tipo field). -/
inductive Tipo where
  | url
  | localFile
  deriving DecidableEq

/-- One resolved file: the dict built at app.py lines 107 and 110. -/
structure Resolved where
  tipo : Tipo
  label : String
  alvo : String
  deriving DecidableEq

/-- app.py line 106: the case-insensitive scheme check. -/
def isUrl (s : String) : Bool :=
  beginsWith (lower s) "http://" || beginsWith (lower s) "https://"

/-- app.py lines 106-110: classify one file reference. -/
def resolveItem (item : String) : Resolved :=
  if isUrl item then { tipo := Tipo.url, label := item, alvo := item }
  else
    let caminho := if isAbs item then item else osJoin PASTA_PARECERES item
    { tipo := Tipo.localFile, label := basename caminho, alvo := caminho }

/-- listar_arquivos_do_aluno (app.py lines 100-111): keep the entries whose
student name matches case-insensitively (line 102, casefold on both sides)
and classify each kept file reference in order. -/
def listar_arquivos_do_aluno (df : List Pair) (aluno : String) : List Resolved :=
  (df.filter (fun e => lower e.1 = lower aluno)).map (fun e => resolveItem e.2)

/-! ### Student roster (app.py line 125) -/

/-- pandas unique(): first-seen deduplication of the student column. -/
def dedupNamesAux (seen : List String) : List String → List String
  | [] => []
  | s :: rest =>
    if s ∈ seen then dedupNamesAux seen rest else s :: dedupNamesAux (s :: seen) rest

/-- Lexicographic code-point order on character lists (Python str compare). -/
def lexLeChars : List Char → List Char → Bool
  | [], _ => true
  | _ :: _, [] => false
  | a :: as, b :: bs =>
    if a.toNat < b.toNat then true
    else if b.toNat < a.toNat then false
    else lexLeChars as bs

/-- The sort key comparison of app.py line 125 (key = str.casefold). -/
def nameLe (s t : String) : Bool := lexLeChars (lower s).data (lower t).data

/-- Stable insertion into a sorted list: an element moves past strictly
smaller keys only, like the stable Python sorted. -/
def insertSorted (x : String) : List String → List String
  | [] => [x]
  | y :: ys =>
    if nameLe y x && !(nameLe x y) then y :: insertSorted x ys else x :: y :: ys

/-- Stable sort by the casefolded name (app.py line 125: sorted(..., key)). -/
def sortNames : List String → List String
  | [] => []
  | x :: xs => insertSorted x (sortNames xs)

/-- app.py line 125: the student roster, the distinct student names sorted
case-insensitively. -/
def alunosOf (df : List Pair) : List String :=
  sortNames (dedupNamesAux [] (df.map Prod.fst))

/-! ### The fallible load boundary (app.py lines 36-46) -/

/-- The outcome of the pd.read_excel call at app.py line 37, relative to the
try/except of lines 36-46, which distinguishes four cases: the spreadsheet
file is absent (FileNotFoundError, caught at line 44), the parsing
dependency openpyxl is absent (ImportError, caught at line 38), the read
raises any other exception - a present but corrupt or non-spreadsheet file
raises BadZipFile or ValueError, which no except clause of lines 36-46
catches - or a parsed sheet. -/
inductive ReadResult where
  | fileNotFound
  | importError
  | parseException
  | parsed (table : List (List String))
  deriving DecidableEq

/-- The failure taxonomy of the load contract. -/
inductive LoadError where
  | SourceNotFound
  | SourceUnreadable
  deriving DecidableEq

/-- The observable outcome of one load: a surfaced taxonomy failure
(st.error followed by st.stop), an exception the try/except does not catch
and therefore propagates out of the loader, or a returned entry list. -/
inductive LoadOutcome where
  | failure (e : LoadError)
  | unhandled
  | ok (entries : List Pair)
  deriving DecidableEq

/-- The load boundary (app.py lines 36-46 around carregar_mapa):
FileNotFoundError surfaces SourceNotFound and halts, ImportError surfaces
SourceUnreadable and halts, every other exception of the read propagates
uncaught, and a parsed sheet is normalized and returned. -/
def load (src : ReadResult) : LoadOutcome :=
  match src with
  | ReadResult.fileNotFound => LoadOutcome.failure LoadError.SourceNotFound
  | ReadResult.importError => LoadOutcome.failure LoadError.SourceUnreadable
  | ReadResult.parseException => LoadOutcome.unhandled
  | ReadResult.parsed t => LoadOutcome.ok (carregar_mapa t)

/-- Does a load outcome return an entry list? -/
def returnsEntries : LoadOutcome → Bool
  | LoadOutcome.ok _ => true
  | _ => false

/-! ### Spec-side definition for the header-detection comparison (claim C2) -/

/-- Modelled from the spec wording of header detection, for comparison with
hasNames: meaningful headers exactly when some lowercased trimmed label of
row 0 matches a student alias or a file alias. -/
def specHasMeaningfulHeaders (labels : List String) : Bool :=
  (lowerCols labels).any (fun c => studentAliases.contains c || fileAliases.contains c)

/-! ### Helper lemmas on the deduplication pass -/

theorem mem_of_mem_dedupAux (seen l : List Pair) (e : Pair) (h : e ∈ dedupAux seen l) :
    e ∈ l := by
  induction l generalizing seen with
  | nil => simp [dedupAux] at h
  | cons a rest ih =>
    by_cases ha : a ∈ seen
    · simp only [dedupAux, if_pos ha] at h
      exact List.mem_cons_of_mem _ (ih seen h)
    · simp only [dedupAux, if_neg ha, List.mem_cons] at h
      rcases h with h | h
      · simp [h]
      · exact List.mem_cons_of_mem _ (ih (a :: seen) h)

theorem not_mem_seen_of_mem_dedupAux (seen l : List Pair) (e : Pair)
    (h : e ∈ dedupAux seen l) : e ∉ seen := by
  induction l generalizing seen with
  | nil => simp [dedupAux] at h
  | cons a rest ih =>
    by_cases ha : a ∈ seen
    · simp only [dedupAux, if_pos ha] at h
      exact ih seen h
    · simp only [dedupAux, if_neg ha, List.mem_cons] at h
      rcases h with h | h
      · subst h; exact ha
      · intro hc
        exact ih (a :: seen) h (List.mem_cons_of_mem _ hc)

theorem dedupAux_pairwise (seen l : List Pair) :
    (dedupAux seen l).Pairwise (fun a b => a ≠ b) := by
  induction l generalizing seen with
  | nil => simp [dedupAux]
  | cons a rest ih =>
    by_cases ha : a ∈ seen
    · simp only [dedupAux, if_pos ha]
      exact ih seen
    · simp only [dedupAux, if_neg ha]
      rw [List.pairwise_cons]
      refine ⟨?_, ih (a :: seen)⟩
      intro e he heq
      have hne := not_mem_seen_of_mem_dedupAux (a :: seen) rest e he
      exact hne (by rw [← heq]; exact List.mem_cons_self a seen)

theorem dedupAux_eq_self (seen l : List Pair) (hp : l.Pairwise (fun a b => a ≠ b))
    (hd : ∀ e ∈ l, e ∉ seen) : dedupAux seen l = l := by
  induction l generalizing seen with
  | nil => simp [dedupAux]
  | cons a rest ih =>
    have ha : a ∉ seen := hd a (List.mem_cons_self a rest)
    rw [List.pairwise_cons] at hp
    simp only [dedupAux, if_neg ha, List.cons.injEq, true_and]
    apply ih (a :: seen) hp.2
    intro e he
    simp only [List.mem_cons]
    rintro (h | h)
    · exact (hp.1 e he) h.symm
    · exact hd e (List.mem_cons_of_mem _ he) h

theorem dedup_idem (l : List Pair) : dedup (dedup l) = dedup l := by
  unfold dedup
  exact dedupAux_eq_self [] _ (dedupAux_pairwise [] l) (fun e _ => List.not_mem_nil e)

/-! ### Helper lemmas on the row expansion -/

theorem expandPieces_ne_nil (s : String) : expandPieces s ≠ [] := by
  simp only [expandPieces]
  split
  · simp
  · rename_i h
    intro hc
    apply h
    rw [hc]
    rfl

theorem ne_empty_of_mem_expandPieces (s p : String) (hs : s ≠ "") (hp : p ∈ expandPieces s) :
    p ≠ "" := by
  simp only [expandPieces] at hp
  split at hp
  · simp only [List.mem_singleton] at hp
    subst hp; exact hs
  · have := List.of_mem_filter hp
    simpa using this

theorem fields_of_mem_processRow (a b : String) (e : Pair) (he : e ∈ processRow a b) :
    e.1 ≠ "" ∧ e.2 ≠ "" := by
  simp only [processRow] at he
  split at he
  · simp at he
  · rename_i h
    push_neg at h
    rcases List.mem_map.mp he with ⟨p, hp, rfl⟩
    exact ⟨h.1, ne_empty_of_mem_expandPieces (strip b) p h.2.1 hp⟩

theorem processRow_eq_nil (a b : String)
    (h : strip a = "" ∨ strip b = "" ∨ lower (strip b) = "nan") :
    processRow a b = [] := by
  simp only [processRow]
  rw [if_pos h]

/-! ### Helper lemmas on the loader structure -/

theorem carregar_mapa_of_entries_ne_nil (t : List (List String)) (h : tableEntries t ≠ []) :
    carregar_mapa t = dedup (tableEntries t) := by
  rcases he : tableEntries t with _ | ⟨x, xs⟩
  · exact absurd he h
  · unfold carregar_mapa
    rw [he]
    rfl

theorem carregar_mapa_of_entries_nil (t : List (List String)) (h : tableEntries t = []) :
    carregar_mapa t = dedup (rawPairsOf t) := by
  unfold carregar_mapa
  rw [h]
  rfl

theorem selData_of_positional (t : List (List String))
    (h : selectCols (t.headD []) = ColSel.positional) : selData t = (t, 0, 1) := by
  unfold selData
  rw [h]

theorem selectCols_positional_of_fail (labels : List String)
    (h : hasNames labels = true)
    (hor : findAliasIdx (lowerCols labels) studentAliases = none ∨
      findAliasIdx (lowerCols labels) fileAliases = none) :
    selectCols labels = ColSel.positional := by
  unfold selectCols
  rw [if_pos h]
  rcases hor with h1 | h1
  · rw [h1]
  · rw [h1]
    cases findAliasIdx (lowerCols labels) studentAliases <;> rfl

theorem selectCols_named_inv (labels : List String) (i j : Nat)
    (h : selectCols labels = ColSel.named i j) :
    findAliasIdx (lowerCols labels) studentAliases = some i ∧
    findAliasIdx (lowerCols labels) fileAliases = some j := by
  unfold selectCols at h
  by_cases hn : hasNames labels = true
  · rw [if_pos hn] at h
    cases h1 : findAliasIdx (lowerCols labels) studentAliases with
    | none =>
      rw [h1] at h
      cases h2 : findAliasIdx (lowerCols labels) fileAliases <;> rw [h2] at h <;> simp at h
    | some a =>
      cases h2 : findAliasIdx (lowerCols labels) fileAliases with
      | none => rw [h1, h2] at h; simp at h
      | some b =>
        rw [h1, h2] at h
        simp only [ColSel.named.injEq] at h
        exact ⟨by rw [h.1], by rw [h.2]⟩
  · rw [if_neg hn] at h
    simp at h

/-! ### The claims -/

/-- Claim C1: a matched reference whose scheme check succeeds resolves to a
remote entry with both label and target the full original string; any other
reference resolves to a local entry whose target is the reference itself
when absolute and the join of the base directory Pareceres with it
otherwise, the label being the basename of the target. -/
theorem resolve_classification (item : String) :
    (isUrl item = true →
      resolveItem item = { tipo := Tipo.url, label := item, alvo := item }) ∧
    (isUrl item = false → isAbs item = true →
      resolveItem item = { tipo := Tipo.localFile, label := basename item, alvo := item }) ∧
    (isUrl item = false → isAbs item = false →
      resolveItem item =
        { tipo := Tipo.localFile, label := basename (osJoin PASTA_PARECERES item),
          alvo := osJoin PASTA_PARECERES item }) := by
  refine ⟨?_, ?_, ?_⟩
  · intro h
    simp [resolveItem, h]
  · intro h1 h2
    simp [resolveItem, h1, h2]
  · intro h1 h2
    simp [resolveItem, h1, h2]

/-- Witness for C1 at the example of the spec: the reference report.pdf with
base directory Pareceres resolves to a local entry with target
Pareceres/report.pdf and label report.pdf. -/
theorem resolve_classification_witness :
    isUrl "report.pdf" = false ∧ isAbs "report.pdf" = false ∧
    resolveItem "report.pdf" =
      { tipo := Tipo.localFile, label := "report.pdf", alvo := "Pareceres/report.pdf" } := by
  refine ⟨by decide, by decide, ?_⟩
  have h := (resolve_classification "report.pdf").2.2 (by decide) (by decide)
  rw [h]
  decide

/-- Counterexample to claim C2: the labels nome and pdf match the spec-side
alias sets, yet the code-side detection has_names tests only six aliases, so
the sheet is treated as headerless and the label row itself is parsed as a
data row. -/
theorem header_detection_counterexample :
    specHasMeaningfulHeaders ["nome", "pdf"] = true ∧
    hasNames ["nome", "pdf"] = false ∧
    selectCols ["nome", "pdf"] = ColSel.positional ∧
    carregar_mapa [["nome", "pdf"], ["Ana", "a.pdf"]] = [("nome", "pdf"), ("Ana", "a.pdf")] := by
  exact ⟨by decide, by decide, by decide, by decide⟩

/-- Claim C2 as amended: the loader treats the sheet as headered exactly when
some lowercased trimmed label of row 0 is one of the six aliases aluno,
alunos, discente, arquivo, parecer, arquivo do parecer; the aliases nome,
nome do aluno, pdf, coluna b take part only in column selection, not in
detection. -/
theorem header_detection_six_aliases (labels : List String) :
    hasNames labels = true ↔ ∃ c ∈ labels, lower (strip c) ∈ headerAliases := by
  unfold hasNames lowerCols
  rw [List.any_eq_true]
  constructor
  · rintro ⟨x, hx, hc⟩
    rcases List.mem_map.mp hx with ⟨c, hcl, rfl⟩
    exact ⟨c, hcl, by simpa using hc⟩
  · rintro ⟨c, hcl, hc⟩
    exact ⟨lower (strip c), List.mem_map.mpr ⟨c, hcl, rfl⟩, by simpa using hc⟩

/-- Witness for the amended C2 at a concrete header row. -/
theorem header_detection_six_aliases_witness :
    hasNames ["Aluno", "Arquivo"] = true :=
  (header_detection_six_aliases ["Aluno", "Arquivo"]).mpr ⟨"Aluno", by decide, by decide⟩

/-- Claim C3: on a sheet the detection classifies as headered, a failure of
either alias scan makes the loader fall back entirely to positional parsing
of the whole sheet, the student at column 0 and the file at column 1 with no
header row consumed; and a named selection is only ever the pair of indices
both scans returned, never a mix. -/
theorem headered_fallback_is_total (table : List (List String)) :
    (hasNames (table.headD []) = true →
      (findAliasIdx (lowerCols (table.headD [])) studentAliases = none ∨
        findAliasIdx (lowerCols (table.headD [])) fileAliases = none) →
      selectCols (table.headD []) = ColSel.positional ∧
      tableEntries table = expandedEntries (tableWidth table) table 0 1 ∧
      rawPairsOf table = rawPairs (tableWidth table) table 0 1) ∧
    (∀ i j, selectCols (table.headD []) = ColSel.named i j →
      findAliasIdx (lowerCols (table.headD [])) studentAliases = some i ∧
      findAliasIdx (lowerCols (table.headD [])) fileAliases = some j) := by
  constructor
  · intro h hor
    have hsel := selectCols_positional_of_fail _ h hor
    have hd := selData_of_positional table hsel
    exact ⟨hsel, by simp only [tableEntries, hd], by simp only [rawPairsOf, hd]⟩
  · intro i j h
    exact selectCols_named_inv _ i j h

/-- Witness for C3: the header row Aluno, Coisa passes detection, the file
alias scan fails, and the loader parses the whole sheet positionally. -/
theorem headered_fallback_witness :
    selectCols (([["Aluno", "Coisa"], ["Ana", "x.pdf"]] : List (List String)).headD []) =
      ColSel.positional ∧
    tableEntries [["Aluno", "Coisa"], ["Ana", "x.pdf"]] =
      expandedEntries (tableWidth [["Aluno", "Coisa"], ["Ana", "x.pdf"]])
        [["Aluno", "Coisa"], ["Ana", "x.pdf"]] 0 1 := by
  have h := (headered_fallback_is_total [["Aluno", "Coisa"], ["Ana", "x.pdf"]]).1
    (by decide) (Or.inr (by decide))
  exact ⟨h.1, h.2.1⟩

/-- Claim C4: a surviving row is expanded by splitting the file cell on the
delimiters comma, semicolon and pipe, trimming the pieces and dropping the
empty ones, one entry per piece for the same student; when the split leaves
no non-empty piece the whole string is the single piece; the three example
cells each split into a.pdf and b.pdf. -/
theorem multi_value_expansion :
    (∀ aluno arquivo : String, strip aluno ≠ "" → strip arquivo ≠ "" →
      lower (strip arquivo) ≠ "nan" →
      processRow aluno arquivo =
        (expandPieces (strip arquivo)).map (fun p => (strip aluno, p))) ∧
    (∀ s : String, ((splitDelims s).map strip).filter (fun p => p != "") = [] →
      expandPieces s = [s]) ∧
    expandPieces "a.pdf,b.pdf" = ["a.pdf", "b.pdf"] ∧
    expandPieces "a.pdf; b.pdf" = ["a.pdf", "b.pdf"] ∧
    expandPieces "a.pdf|b.pdf" = ["a.pdf", "b.pdf"] := by
  refine ⟨?_, ?_, by decide, by decide, by decide⟩
  · intro a b h1 h2 h3
    simp only [processRow]
    rw [if_neg]
    push_neg
    exact ⟨h1, h2, h3⟩
  · intro s h
    simp only [expandPieces, h]
    rfl

/-- Witness for C4: the cell a.pdf,b.pdf of student Ana expands into exactly
the two entries. -/
theorem multi_value_expansion_witness :
    processRow "Ana" "a.pdf,b.pdf" = [("Ana", "a.pdf"), ("Ana", "b.pdf")] := by
  have h := multi_value_expansion.1 "Ana" "a.pdf,b.pdf" (by decide) (by decide) (by decide)
  rw [h]
  decide

/-- Counterexample to claim C5: in a sheet whose every row is skipped, the
loader falls back to the raw normalized column pairs (app.py line 96), so
the single row carrying the file text nan produces an entry instead of zero
entries. -/
theorem skip_rule_counterexample :
    lower (strip "nan") = "nan" ∧
    carregar_mapa [["Ana", "nan"]] = [("Ana", "nan")] := by
  exact ⟨by decide, by decide⟩

/-- Claim C5 as amended: a row whose trimmed student text is empty, whose
trimmed file text is empty, or whose trimmed file text lowercases to the
literal nan contributes zero expanded entries; the loader returns the
deduplicated expanded entries whenever at least one row survives, and only
when every row is skipped does it fall back to the deduplicated raw column
pairs, where skipped rows reappear. -/
theorem skip_rule_amended :
    (∀ a b : String, (strip a = "" ∨ strip b = "" ∨ lower (strip b) = "nan") →
      processRow a b = []) ∧
    (∀ table, tableEntries table ≠ [] → carregar_mapa table = dedup (tableEntries table)) ∧
    (∀ table, tableEntries table = [] → carregar_mapa table = dedup (rawPairsOf table)) :=
  ⟨processRow_eq_nil, carregar_mapa_of_entries_ne_nil, carregar_mapa_of_entries_nil⟩

/-- Witness for the amended C5: an all-cases nan cell is skipped, and a sheet
with one surviving row loads to exactly that entry. -/
theorem skip_rule_amended_witness :
    processRow "Ana" "NaN" = [] ∧
    carregar_mapa [["Ana", "x.pdf"]] = [("Ana", "x.pdf")] := by
  constructor
  · exact skip_rule_amended.1 "Ana" "NaN" (Or.inr (Or.inr (by decide)))
  · have h := skip_rule_amended.2.1 [["Ana", "x.pdf"]] (by decide)
    rw [h]
    decide

/-- Counterexample to claim C6: a sheet whose only row has a blank student
cell is entirely skipped, the fallback of app.py line 96 returns the raw
pair, and the loaded list contains an entry with an empty student field. -/
theorem invariant_counterexample :
    carregar_mapa [[" ", "x.pdf"]] = [("", "x.pdf")] ∧
    ("", "x.pdf") ∈ carregar_mapa [[" ", "x.pdf"]] := by
  exact ⟨by decide, by decide⟩

/-- Claim C6 as amended: the loaded list never holds two equal (student,
file) pairs, and when at least one row survives the skip filter every loaded
entry has a non-empty student and a non-empty file reference; only the
all-rows-skipped fallback can let empty fields through. -/
theorem invariant_amended (table : List (List String)) :
    (carregar_mapa table).Pairwise (fun a b => a ≠ b) ∧
    (tableEntries table ≠ [] → ∀ e ∈ carregar_mapa table, e.1 ≠ "" ∧ e.2 ≠ "") := by
  constructor
  · exact dedupAux_pairwise [] _
  · intro h e he
    rw [carregar_mapa_of_entries_ne_nil table h] at he
    have he2 := mem_of_mem_dedupAux [] _ e he
    simp only [tableEntries, expandedEntries] at he2
    rcases List.mem_flatMap.mp he2 with ⟨r, _, hr⟩
    exact fields_of_mem_processRow _ _ e hr

/-- Witness for the amended C6 at a sheet with a duplicated row. -/
theorem invariant_amended_witness :
    (carregar_mapa [["Ana", "a.pdf"], ["Ana", "a.pdf"]]).Pairwise (fun a b => a ≠ b) ∧
    (("Ana", "a.pdf") : Pair).1 ≠ "" ∧ (("Ana", "a.pdf") : Pair).2 ≠ "" := by
  have h := invariant_amended [["Ana", "a.pdf"], ["Ana", "a.pdf"]]
  exact ⟨h.1, h.2 (by decide) ("Ana", "a.pdf") (by decide)⟩

/-- Claim C7: the resolver is total and returns exactly the classification
of the entries whose stored student name equals the queried name after
case-folding both sides, in their original order: an empty list when nothing
matches, and the same output for two queries with equal case-folded names. -/
theorem resolver_total_exact (df : List Pair) (aluno : String) :
    listar_arquivos_do_aluno df aluno =
      (df.filter (fun e => lower e.1 = lower aluno)).map (fun e => resolveItem e.2) ∧
    ((∀ e ∈ df, lower e.1 ≠ lower aluno) → listar_arquivos_do_aluno df aluno = []) ∧
    (∀ outro : String, lower aluno = lower outro →
      listar_arquivos_do_aluno df aluno = listar_arquivos_do_aluno df outro) := by
  refine ⟨rfl, ?_, ?_⟩
  · intro h
    have hf : df.filter (fun e => lower e.1 = lower aluno) = [] := by
      rw [List.filter_eq_nil_iff]
      intro e he
      simpa using h e he
    simp only [listar_arquivos_do_aluno, hf, List.map_nil]
  · intro outro ho
    simp only [listar_arquivos_do_aluno, ho]

/-- Witness for C7 at the example of the spec: the entry of Maria Silva is
returned for the lowercase query maria silva. -/
theorem resolver_total_exact_witness :
    listar_arquivos_do_aluno [("Maria Silva", "doc.pdf")] "maria silva" =
      listar_arquivos_do_aluno [("Maria Silva", "doc.pdf")] "MARIA SILVA" ∧
    listar_arquivos_do_aluno [("Maria Silva", "doc.pdf")] "maria silva" ≠ [] := by
  have h := (resolver_total_exact [("Maria Silva", "doc.pdf")] "maria silva").2.2
    "MARIA SILVA" (by decide)
  exact ⟨h, by decide⟩

/-- Counterexample to claim C8: a present but corrupt spreadsheet is a
source that cannot be parsed as tabular data, yet its read exception is one
the try/except of app.py lines 36-46 does not catch: the load neither fails
with SourceUnreadable nor returns an entry list, refuting both the
exactly-when clause and the every-other-case clause of the claim. -/
theorem load_taxonomy_counterexample :
    load ReadResult.parseException = LoadOutcome.unhandled ∧
    load ReadResult.parseException ≠ LoadOutcome.failure LoadError.SourceUnreadable ∧
    returnsEntries (load ReadResult.parseException) = false := by
  exact ⟨rfl, by decide, rfl⟩

/-- Claim C8 as amended: load fails with SourceNotFound exactly when the
spreadsheet is absent, fails with SourceUnreadable exactly when the parsing
dependency is missing (ImportError, the one cannot-parse case the code
catches), propagates an unhandled exception exactly when the read raises
any other parsing error (a present but corrupt workbook), and returns the
normalized entry list in every remaining case, the parsed sheets. -/
theorem load_error_taxonomy (src : ReadResult) :
    (load src = LoadOutcome.failure LoadError.SourceNotFound ↔ src = ReadResult.fileNotFound) ∧
    (load src = LoadOutcome.failure LoadError.SourceUnreadable ↔ src = ReadResult.importError) ∧
    (load src = LoadOutcome.unhandled ↔ src = ReadResult.parseException) ∧
    (∀ t, src = ReadResult.parsed t → load src = LoadOutcome.ok (carregar_mapa t)) := by
  cases src with
  | fileNotFound =>
    refine ⟨by simp [load], by simp [load], by simp [load], ?_⟩
    intro t h
    simp at h
  | importError =>
    refine ⟨by simp [load], by simp [load], by simp [load], ?_⟩
    intro t h
    simp at h
  | parseException =>
    refine ⟨by simp [load], by simp [load], by simp [load], ?_⟩
    intro t h
    simp at h
  | parsed t0 =>
    refine ⟨by simp [load], by simp [load], by simp [load], ?_⟩
    intro t h
    injection h with h2
    subst h2
    rfl

/-- Witness for the amended C8 at the four concrete source states. -/
theorem load_error_taxonomy_witness :
    load ReadResult.fileNotFound = LoadOutcome.failure LoadError.SourceNotFound ∧
    load ReadResult.importError = LoadOutcome.failure LoadError.SourceUnreadable ∧
    load ReadResult.parseException = LoadOutcome.unhandled ∧
    load (ReadResult.parsed [["Ana", "a.pdf"]]) = LoadOutcome.ok [("Ana", "a.pdf")] := by
  refine ⟨(load_error_taxonomy ReadResult.fileNotFound).1.mpr rfl,
    (load_error_taxonomy ReadResult.importError).2.1.mpr rfl,
    (load_error_taxonomy ReadResult.parseException).2.2.1.mpr rfl, ?_⟩
  have h := (load_error_taxonomy (ReadResult.parsed [["Ana", "a.pdf"]])).2.2.2
    [["Ana", "a.pdf"]] rfl
  rw [h]
  exact congrArg LoadOutcome.ok (by decide)

/-- Claim C9: loading is idempotent: the same unchanged sheet loads to the
identical entry list on a repeated call, and the loaded list is a fixed
point of the deduplication pass. -/
theorem load_idempotent (table : List (List String)) :
    carregar_mapa table = carregar_mapa table ∧
    dedup (carregar_mapa table) = carregar_mapa table :=
  ⟨rfl, dedup_idem _⟩

/-- Claim C10: the skip test is asymmetric: only the file text is compared
against the literal nan, so a row whose student cell stringifies to nan is
kept, its entries carry the literal student name nan, and nan appears in the
student roster. -/
theorem nan_student_asymmetry :
    (∀ arquivo : String, strip arquivo ≠ "" → lower (strip arquivo) ≠ "nan" →
      processRow "nan" arquivo ≠ [] ∧ ∀ e ∈ processRow "nan" arquivo, e.1 = "nan") ∧
    carregar_mapa [["nan", "x.pdf"], ["Ana", "a.pdf"]] = [("nan", "x.pdf"), ("Ana", "a.pdf")] ∧
    "nan" ∈ alunosOf (carregar_mapa [["nan", "x.pdf"], ["Ana", "a.pdf"]]) := by
  refine ⟨?_, by decide, by decide⟩
  intro b h1 h2
  have hn : strip "nan" = "nan" := by decide
  have hcond : ¬(("nan" : String) = "" ∨ strip b = "" ∨ lower (strip b) = "nan") := by
    push_neg
    exact ⟨by decide, h1, h2⟩
  constructor
  · simp only [processRow, hn]
    rw [if_neg hcond]
    intro hc
    exact expandPieces_ne_nil (strip b) (List.map_eq_nil_iff.mp hc)
  · intro e he
    simp only [processRow, hn] at he
    rw [if_neg hcond] at he
    rcases List.mem_map.mp he with ⟨p, hp, rfl⟩
    rfl

/-- Witness for C10: the row with literal student nan and file x.pdf is kept. -/
theorem nan_student_asymmetry_witness :
    processRow "nan" "x.pdf" ≠ [] :=
  (nan_student_asymmetry.1 "x.pdf" (by decide) (by decide)).1

end App
